import Mathlib

/-!
# lvisor: the Linux boot-protocol loader and the bootstrap sequence

A shallow embedding of `load_linux` (firmware/linux.c) and of `main`
(vmm/main.c), and the properties of the two that the specification states.

Storage is byte-addressed.  `struct boot_params params` is a static object of
the loader, so it is kept as a byte map of its own, indexed by the offset from
`&params`; the kernel image, the descriptor's E820 table and the guest load
area are reached through addresses and live in a second byte map.  Every call
the loader makes and every field it stores is also appended to a trace, in
program order.

`load_linux` checks no length.  A copy into `params` that is longer than what
is left of `params` goes on into the storage next to it, which this model does
not hold: the state counts the bytes written past the end.  A `memcpy` over a
range that leaves the 64-bit address space does not return: the state is then
stuck and nothing after the call runs.
-/

namespace Lvisor

/-! ## Machine integers and byte maps -/

/-- Wrap a number to an unsigned 64-bit value. -/
def u64 (x : Nat) : Nat := x % 2 ^ 64

/-- The difference `a - b` of two `uint64_t` values. -/
def sub64 (a b : Nat) : Nat := (u64 a + 2 ^ 64 - u64 b) % 2 ^ 64

/-- The content of a piece of storage: one value for each byte address. -/
abbrev Bytes := Nat → Nat

/-- Load of a `uint8_t`. -/
def rd8 (m : Bytes) (a : Nat) : Nat := m a % 256

/-- Load of a little-endian `uint16_t`. -/
def rd16 (m : Bytes) (a : Nat) : Nat := rd8 m a + 256 * rd8 m (a + 1)

/-- Load of a little-endian `uint32_t`. -/
def rd32 (m : Bytes) (a : Nat) : Nat := rd16 m a + 65536 * rd16 m (a + 2)

/-- Store of a `uint8_t` (the value is truncated to the width of the field). -/
def wr8 (m : Bytes) (a v : Nat) : Bytes := fun x => if x = a then v % 256 else m x

/-- Store of a little-endian `uint16_t`. -/
def wr16 (m : Bytes) (a v : Nat) : Bytes := wr8 (wr8 m a v) (a + 1) (v / 256)

/-- Store of a little-endian `uint32_t`. -/
def wr32 (m : Bytes) (a v : Nat) : Bytes := wr16 (wr16 m a v) (a + 2) (v / 65536)

/-- The effect of `memset(dst, c, n)`. -/
def memset (m : Bytes) (dst c n : Nat) : Bytes :=
  fun x => if dst ≤ x ∧ x < dst + n then c % 256 else m x

/-- The effect of `memcpy(dst, src, n)`: `n` bytes of `from_` starting at `src`
are written to `tgt` starting at `dst`. -/
def memcpy (tgt : Bytes) (dst : Nat) (from_ : Bytes) (src n : Nat) : Bytes :=
  fun x => if dst ≤ x ∧ x < dst + n then from_ (src + (x - dst)) else tgt x

/-! ## Constants of firmware/linux.c -/

def SETUP_HDR_OFFSET : Nat := 0x1F1
def MAGIC_SIGNATURE_OFFSET : Nat := 0x202
def MAGIC_SIGNATURE : Nat := 0x53726448
def SECT_SIZE : Nat := 512

/-! ## What the headers outside the sources declare -/

/-- Offsets and sizes of `struct boot_params`, `struct setup_header` and
`struct boot_e820_entry`.  Their declarations (asm/bootparam.h) are not among
the sources, so the layout is a parameter of the loader.  The widths of the
members are those the loader's stores and the boot protocol use: `setup_sects`,
`type_of_loader`, `loadflags` and `e820_entries` are one byte, `vid_mode`,
`kernel_version` and `heap_end_ptr` two, the ramdisk members and
`cmd_line_ptr` four. -/
structure Layout where
  sizeof_boot_params : Nat
  ext_ramdisk_image : Nat
  ext_ramdisk_size : Nat
  e820_entries : Nat
  hdr : Nat
  e820_table : Nat
  E820_MAX_ENTRIES : Nat
  sizeof_boot_e820_entry : Nat
  sizeof_setup_header : Nat
  setup_sects : Nat
  vid_mode : Nat
  kernel_version : Nat
  type_of_loader : Nat
  loadflags : Nat
  ramdisk_image : Nat
  ramdisk_size : Nat
  heap_end_ptr : Nat
  cmd_line_ptr : Nat

/-- The members lie inside their structures, in the order in which the boot
protocol declares them, and do not overlap; the count `e820_entries` of a full
table fits its byte; the setup header is no longer than the 0x202 bytes that
every header copy of `load_linux` has at least. -/
def Layout.wf (L : Layout) : Prop :=
  L.ext_ramdisk_image + 4 ≤ L.ext_ramdisk_size ∧
  L.ext_ramdisk_size + 4 ≤ L.e820_entries ∧
  L.e820_entries + 1 ≤ L.hdr ∧
  L.hdr + L.sizeof_setup_header ≤ L.e820_table ∧
  L.e820_table + L.E820_MAX_ENTRIES * L.sizeof_boot_e820_entry ≤ L.sizeof_boot_params ∧
  L.E820_MAX_ENTRIES < 256 ∧
  L.setup_sects + 1 ≤ L.vid_mode ∧
  L.vid_mode + 2 ≤ L.kernel_version ∧
  L.kernel_version + 2 ≤ L.type_of_loader ∧
  L.type_of_loader + 1 ≤ L.loadflags ∧
  L.loadflags + 1 ≤ L.ramdisk_image ∧
  L.ramdisk_image + 4 ≤ L.ramdisk_size ∧
  L.ramdisk_size + 4 ≤ L.heap_end_ptr ∧
  L.heap_end_ptr + 2 ≤ L.cmd_line_ptr ∧
  L.cmd_line_ptr + 4 ≤ L.sizeof_setup_header ∧
  L.sizeof_setup_header ≤ 0x0202

instance (L : Layout) : Decidable L.wf := by
  unfold Layout.wf; exact inferInstance

/-- The layout of the x86 Linux boot protocol ("zero page"), the one the
comment above `load_linux` refers to. -/
def zeroPage : Layout where
  sizeof_boot_params := 4096
  ext_ramdisk_image := 0x0c0
  ext_ramdisk_size := 0x0c4
  e820_entries := 0x1e8
  hdr := 0x1f1
  e820_table := 0x2d0
  E820_MAX_ENTRIES := 128
  sizeof_boot_e820_entry := 20
  sizeof_setup_header := 0x7b
  setup_sects := 0x00
  vid_mode := 0x09
  kernel_version := 0x1d
  type_of_loader := 0x1f
  loadflags := 0x20
  ramdisk_image := 0x27
  ramdisk_size := 0x2b
  heap_end_ptr := 0x33
  cmd_line_ptr := 0x37

/-- What the build fixes and the sources do not show: the translation `__va`,
the guest load address `KERNEL_START` (boot.h), the address of the static
`params` and the address of the command-line string literal. -/
structure Env where
  va : Nat → Nat
  KERNEL_START : Nat
  params : Nat
  cmdline : Nat

/-- The fields of `struct guest_params` that `load_linux` reads.  The scalars
are `uint64_t` values (`e820_entries` a count); `e820_table` is the address of
the table inside the descriptor. -/
structure guest_params where
  kernel_start : Nat
  kernel_end : Nat
  initrd_start : Nat
  initrd_end : Nat
  e820_entries : Nat
  e820_table : Nat

/-! ## The trace of a load -/

/-- The messages `load_linux` logs through `pr_info`. -/
inductive Msg where
  /-- The text "Kernel too old.\n". -/
  | kernel_too_old
  /-- The text "Kernel version: %s\n". -/
  | kernel_version
  /-- The text "the kernel image was not bzImage format\n". -/
  | not_bzImage
  /-- The text "Kernel command line options: %s\n". -/
  | cmdline
  deriving DecidableEq, Repr

/-- One effect of the loader. -/
inductive Event where
  | memset (dst c n : Nat)
  | memcpy (dst src n : Nat)
  | store (addr width val : Nat)
  | pr_info (msg : Msg) (args : List Nat)
  | call (target arg0 arg1 : Nat)
  deriving DecidableEq, Repr

def Event.isCall : Event → Bool
  | .call _ _ _ => true
  | _ => false

def Event.isMemcpy : Event → Bool
  | .memcpy _ _ _ => true
  | _ => false

/-- The state of a load: the bytes of `params`, the bytes of addressed memory,
and the effects so far.  `overrun` is the number of bytes that a copy into
`params` has written past the end of `params`, 0 when every copy stayed inside.
`stuck` says that a `memcpy` has been called over a range that leaves the
64-bit address space: the call does not return. -/
structure State where
  params : Bytes
  mem : Bytes
  trace : List Event
  overrun : Nat
  stuck : Bool

def State.emit (s : State) (e : Event) : State :=
  { s with trace := s.trace ++ [e] }

/-- A one-byte member of `params` is assigned. -/
def State.store8 (s : State) (E : Env) (off v : Nat) : State :=
  { s with params := wr8 s.params off v,
           trace := s.trace ++ [Event.store (E.params + off) 1 (v % 2 ^ 8)] }

/-- A two-byte member of `params` is assigned. -/
def State.store16 (s : State) (E : Env) (off v : Nat) : State :=
  { s with params := wr16 s.params off v,
           trace := s.trace ++ [Event.store (E.params + off) 2 (v % 2 ^ 16)] }

/-- A four-byte member of `params` is assigned. -/
def State.store32 (s : State) (E : Env) (off v : Nat) : State :=
  { s with params := wr32 s.params off v,
           trace := s.trace ++ [Event.store (E.params + off) 4 (v % 2 ^ 32)] }

/-- The call `memcpy(&params + off, src, n)` with `src` an address and `size`
the size of `params`.  The bytes that fit are written to `params`; those past
the end of `params` land in the storage next to it and are counted in
`overrun`. -/
def State.copy_in (s : State) (E : Env) (size off src n : Nat) : State :=
  { s with params := memcpy s.params off s.mem src (min n (size - off)),
           overrun := max s.overrun (off + n - size),
           trace := s.trace ++ [Event.memcpy (E.params + off) src n] }

/-- The call `memcpy(dst, src, n)` between two addresses.  When the source or
the destination range leaves the 64-bit address space the call is made and
does not return; what it has written by then is not modelled. -/
def State.copy_mem (s : State) (dst src n : Nat) : State :=
  if src + n ≤ 2 ^ 64 ∧ dst + n ≤ 2 ^ 64 then
    { s with mem := memcpy s.mem dst s.mem src n,
             trace := s.trace ++ [Event.memcpy dst src n] }
  else
    { s with stuck := true,
             trace := s.trace ++ [Event.memcpy dst src n] }

/-! ## load_linux -/

/-- Line 66 of firmware/linux.c, `memset(&params, 0, sizeof(struct boot_params))`,
on the prior content `p0` of `params` and the content `m0` of memory. -/
def zero_params (E : Env) (L : Layout) (p0 m0 : Bytes) : State :=
  { params := memset p0 0 0 L.sizeof_boot_params, mem := m0,
    trace := [Event.memset E.params 0 L.sizeof_boot_params],
    overrun := 0, stuck := false }

/-- Lines 73 to 87: the header copy, the default for `setup_sects`, the version
log, `type_of_loader` and the low halves of the ramdisk members. -/
def parse_header (E : Env) (L : Layout) (gp : guest_params) (s : State) : State :=
  let image := E.va gp.kernel_start
  let hdr := L.hdr
  let header_image := image + SETUP_HDR_OFFSET
  -- memcpy(hdr, header_image, 0x0202 + *(uint8_t *)(image + 0x0201));
  let s := s.copy_in E L.sizeof_boot_params hdr header_image
    (0x0202 + rd8 s.mem (image + 0x0201))
  let s := if rd8 s.params (hdr + L.setup_sects) = 0
    then s.store8 E (hdr + L.setup_sects) 4 else s
  let s := s.emit (Event.pr_info Msg.kernel_version
    [image + rd16 s.params (hdr + L.kernel_version) + 0x200])
  let s := s.store8 E (hdr + L.type_of_loader) 0xFF
  if gp.initrd_start < gp.initrd_end then
    let s := s.store32 E (hdr + L.ramdisk_image) (gp.initrd_start &&& 0x00000000ffffffff)
    s.store32 E (hdr + L.ramdisk_size)
      (sub64 gp.initrd_end gp.initrd_start &&& 0x00000000ffffffff)
  else s

/-- Lines 94 to 109: heap, video mode and command line in the header, then the
additional fields of `params` and the E820 table. -/
def fill_params (E : Env) (L : Layout) (gp : guest_params) (s : State) : State :=
  let hdr := L.hdr
  let heap_end := 0xe000
  let s := s.store16 E (hdr + L.heap_end_ptr) (heap_end - 0x200)
  let s := s.store8 E (hdr + L.loadflags) (rd8 s.params (hdr + L.loadflags) ||| 0x80)
  let s := s.store16 E (hdr + L.vid_mode) 0xffff
  let s := s.store32 E (hdr + L.cmd_line_ptr) (u64 E.cmdline)
  let s := s.emit (Event.pr_info Msg.cmdline [rd32 s.params (hdr + L.cmd_line_ptr)])
  let s := s.store32 E L.ext_ramdisk_image
    ((gp.initrd_start &&& 0xffffffff00000000) >>> 32)
  let s := s.store32 E L.ext_ramdisk_size
    ((sub64 gp.initrd_end gp.initrd_start &&& 0xffffffff00000000) >>> 32)
  let s := s.store8 E L.e820_entries gp.e820_entries
  -- the length is a product in `size_t`, which a count of `int` width cannot overflow
  s.copy_in E L.sizeof_boot_params L.e820_table gp.e820_table
    (gp.e820_entries * L.sizeof_boot_e820_entry)

/-- Lines 111 to 118: the copy of the kernel body to the guest load address and
the call of the entry point. -/
def relocate_and_enter (E : Env) (L : Layout) (gp : guest_params) (s : State) : State :=
  let image := E.va gp.kernel_start
  let hdr := L.hdr
  let kernel_start := u64 (image + (rd8 s.params (hdr + L.setup_sects) + 1) * SECT_SIZE)
  let s := s.copy_mem (E.va E.KERNEL_START) kernel_start (sub64 gp.kernel_end kernel_start)
  let entry := E.va E.KERNEL_START + 0x200
  -- the call is reached once the copy has returned
  if s.stuck then s else s.emit (Event.call entry 0 E.params)

/-- The function `load_linux` of firmware/linux.c, run on the descriptor `gp`
with `p0` the prior content of `params` and `m0` the content of memory.  The
result is the state in which the function returns, in which it has called
the entry point, or in which it is stuck in the copy of the kernel body. -/
def load_linux (E : Env) (L : Layout) (gp : guest_params) (p0 m0 : Bytes) : State :=
  let image := E.va gp.kernel_start
  let hdr := L.hdr
  let s := zero_params E L p0 m0
  if rd32 s.mem (image + MAGIC_SIGNATURE_OFFSET) ≠ MAGIC_SIGNATURE then
    s.emit (Event.pr_info Msg.kernel_too_old [])
  else
    let s := parse_header E L gp s
    if rd8 s.params (hdr + L.loadflags) &&& 0x01 = 0 then
      s.emit (Event.pr_info Msg.not_bzImage [])
    else
      relocate_and_enter E L gp (fill_params E L gp s)

/-! ## Images and descriptors -/

/-- The image at `gp.kernel_start` carries the signature at offset 0x202. -/
def magic_ok (E : Env) (gp : guest_params) (m0 : Bytes) : Prop :=
  rd32 m0 (E.va gp.kernel_start + MAGIC_SIGNATURE_OFFSET) = MAGIC_SIGNATURE

/-- The member at offset `off` of the setup header of the image, one byte. -/
def image_hdr8 (E : Env) (gp : guest_params) (m0 : Bytes) (off : Nat) : Nat :=
  rd8 m0 (E.va gp.kernel_start + SETUP_HDR_OFFSET + off)

/-- The member at offset `off` of the setup header of the image, four bytes. -/
def image_hdr32 (E : Env) (gp : guest_params) (m0 : Bytes) (off : Nat) : Nat :=
  rd32 m0 (E.va gp.kernel_start + SETUP_HDR_OFFSET + off)

/-- A valid bzImage: the signature is there and bit 0 of `loadflags` is set. -/
def valid_bzImage (E : Env) (L : Layout) (gp : guest_params) (m0 : Bytes) : Prop :=
  magic_ok E gp m0 ∧ image_hdr8 E gp m0 L.loadflags &&& 0x01 ≠ 0

/-- The scalars of the descriptor are 64-bit values. -/
def guest_params.wf (gp : guest_params) : Prop :=
  gp.kernel_start < 2 ^ 64 ∧ gp.kernel_end < 2 ^ 64 ∧
  gp.initrd_start < 2 ^ 64 ∧ gp.initrd_end < 2 ^ 64

instance (E : Env) (gp : guest_params) (m0 : Bytes) : Decidable (magic_ok E gp m0) := by
  unfold magic_ok; exact inferInstance

instance (E : Env) (L : Layout) (gp : guest_params) (m0 : Bytes) :
    Decidable (valid_bzImage E L gp m0) := by
  unfold valid_bzImage; exact inferInstance

instance (gp : guest_params) : Decidable gp.wf := by
  unfold guest_params.wf; exact inferInstance

/-- The number of setup sectors as the specification defines it: that of the
header of the image, 4 when the header says 0. -/
def effective_setup_sects (E : Env) (L : Layout) (gp : guest_params) (m0 : Bytes) : Nat :=
  if image_hdr8 E gp m0 L.setup_sects = 0 then 4 else image_hdr8 E gp m0 L.setup_sects

/-- The source of the copy of the kernel body, as line 112 computes it from the
setup sectors. -/
def body_src (E : Env) (L : Layout) (gp : guest_params) (m0 : Bytes) : Nat :=
  u64 (E.va gp.kernel_start + (effective_setup_sects E L gp m0 + 1) * SECT_SIZE)

/-- The length of the copy of the kernel body, as line 113 computes it. -/
def body_len (E : Env) (L : Layout) (gp : guest_params) (m0 : Bytes) : Nat :=
  sub64 gp.kernel_end (body_src E L gp m0)

/-- The source range and the destination range of the copy of the kernel body
end inside the 64-bit address space. -/
def body_copy_fits (E : Env) (L : Layout) (gp : guest_params) (m0 : Bytes) : Prop :=
  body_src E L gp m0 + body_len E L gp m0 ≤ 2 ^ 64 ∧
  E.va E.KERNEL_START + body_len E L gp m0 ≤ 2 ^ 64

instance (E : Env) (L : Layout) (gp : guest_params) (m0 : Bytes) :
    Decidable (body_copy_fits E L gp m0) := by
  unfold body_copy_fits; exact inferInstance

/-! ## The bound that the kernel-body copy is asked to keep -/

/-- Every copy to the guest load address stops at `kernel_end`: its source
range ends at or before the translated `kernel_end`. -/
def body_copy_bounded (E : Env) (L : Layout) (gp : guest_params) (p0 m0 : Bytes) : Prop :=
  ∀ src n, Event.memcpy (E.va E.KERNEL_START) src n ∈ (load_linux E L gp p0 m0).trace →
    src + n ≤ E.va gp.kernel_end

/-! ## main -/

/-- The functions that `main` (vmm/main.c) calls. -/
inductive Stage where
  | porte9_init
  | vgacon_init
  | cpu_init
  | tsc_init
  | trap_init
  | multiboot_init
  | acpi_table_init
  | apic_init
  | kvm_init
  | kvm_bsp_run
  deriving DecidableEq, Repr

/-- Modelled from the spec: the initializers that `main` calls are not among
the sources.  A stage either completes, and control returns to `main`, or it
fails, and a failure is fatal to the whole bring-up: control does not return. -/
inductive StageResult where
  | completes
  | fails
  deriving DecidableEq, Repr

/-- The calls made by a sequence of call statements `f1(); f2(); ...`: a
function is called once the one before it has returned. -/
def run_calls (result : Stage → StageResult) : List Stage → List Stage
  | [] => []
  | f :: rest =>
    f :: (match result f with
      | StageResult.completes => run_calls result rest
      | StageResult.fails => [])

/-- The call statements of `main`, in the order of the source.  The arguments
(`BRIGHT_YELLOW`, `magic`, `multiboot_info`) play no part in the order. -/
def main_body : List Stage :=
  [Stage.porte9_init, Stage.vgacon_init, Stage.cpu_init, Stage.tsc_init, Stage.trap_init,
   Stage.multiboot_init, Stage.acpi_table_init, Stage.apic_init, Stage.kvm_init,
   Stage.kvm_bsp_run]

/-- The stages that a run of `main` calls, in order. -/
def main (result : Stage → StageResult) : List Stage := run_calls result main_body

/-! ## Concrete loads -/

/-- An environment in which `__va` is the identity. -/
def idEnv : Env :=
  { va := fun x => x, KERNEL_START := 0x1000000, params := 0x200000, cmdline := 0x9000 }

/-- An environment in which `__va` adds the base of a high-half mapping. -/
def highEnv : Env :=
  { va := fun x => x + 0xffffffff80000000, KERNEL_START := 0x1000000,
    params := 0xffffffff80200000, cmdline := 0xffffffff80009000 }

/-- Storage that holds 0 everywhere. -/
def zeros : Bytes := fun _ => 0

/-- Memory with a bzImage at address `base`: the signature at offset 0x202,
`loadflags` 0x01 at 0x211, `setup_sects` at 0x1F1, the length byte 0 at 0x201,
and two bytes of setup code, 0xAA at offset 0x2d0 and 0xBB at 0x2e4. -/
def image_at (base setup_sects : Nat) : Bytes :=
  wr8 (wr8 (wr8 (wr8 (wr32 zeros (base + 0x202) MAGIC_SIGNATURE) (base + 0x211) 0x01)
    (base + 0x1F1) setup_sects) (base + 0x2d0) 0xAA) (base + 0x2e4) 0xBB

/-- A kernel of 0x4000 bytes at 0x100000, no ramdisk, an empty E820 table. -/
def gpPlain : guest_params :=
  { kernel_start := 0x100000, kernel_end := 0x104000, initrd_start := 0, initrd_end := 0,
    e820_entries := 0, e820_table := 0x8000 }

/-- The same kernel with a ramdisk above 4 GiB. -/
def gpInitrd : guest_params :=
  { gpPlain with initrd_start := 0x123456000, initrd_end := 0x323457000 }

/-- The same kernel with `initrd_start` above `initrd_end`. -/
def gpBackwards : guest_params :=
  { gpPlain with initrd_start := 5, initrd_end := 3 }

/-- A kernel image of 0x400 bytes, shorter than its setup sectors. -/
def gpShort : guest_params :=
  { gpPlain with kernel_end := 0x100400 }

/-- The same kernel with one entry in the E820 table. -/
def gpOneEntry : guest_params :=
  { gpPlain with e820_entries := 1 }

/-- Memory with an image at 0x100000 that carries the signature and has bit 0
of `loadflags` clear. -/
def legacy_image : Bytes := wr32 zeros 0x100202 MAGIC_SIGNATURE

/-- Memory with the bzImage of `image_at` at 0x100000 whose header carries 5 in
`ramdisk_image` (offset 0x218 of the image). -/
def image_with_ramdisk : Bytes := wr32 (image_at 0x100000 10) 0x100218 5

/-! ## Loads over stores -/

theorem wr8_at_ne {m : Bytes} {a v x : Nat} (h : x ≠ a) : wr8 m a v x = m x := by
  simp [wr8, h]

theorem wr16_at_out {m : Bytes} {a v x : Nat} (h : x < a ∨ a + 2 ≤ x) :
    wr16 m a v x = m x := by
  unfold wr16
  rw [wr8_at_ne (by omega), wr8_at_ne (by omega)]

theorem wr32_at_out {m : Bytes} {a v x : Nat} (h : x < a ∨ a + 4 ≤ x) :
    wr32 m a v x = m x := by
  unfold wr32
  rw [wr16_at_out (by omega), wr16_at_out (by omega)]

theorem memcpy_at_out {t f : Bytes} {d s n x : Nat} (h : x < d ∨ d + n ≤ x) :
    memcpy t d f s n x = t x := by
  unfold memcpy
  rw [if_neg (by omega)]

theorem memcpy_at_in {t f : Bytes} {d s n x : Nat} (h1 : d ≤ x) (h2 : x < d + n) :
    memcpy t d f s n x = f (s + (x - d)) := by
  unfold memcpy
  rw [if_pos ⟨h1, h2⟩]

theorem memset_at_in {m : Bytes} {d c n x : Nat} (h1 : d ≤ x) (h2 : x < d + n) :
    memset m d c n x = c % 256 := by
  unfold memset
  rw [if_pos ⟨h1, h2⟩]

theorem rd8_congr {p q : Bytes} {a : Nat} (h : p a = q a) : rd8 p a = rd8 q a := by
  unfold rd8; rw [h]

theorem rd16_congr {p q : Bytes} {a : Nat} (h0 : p a = q a) (h1 : p (a + 1) = q (a + 1)) :
    rd16 p a = rd16 q a := by
  unfold rd16; rw [rd8_congr h0, rd8_congr h1]

theorem rd32_congr {p q : Bytes} {a : Nat} (h0 : p a = q a) (h1 : p (a + 1) = q (a + 1))
    (h2 : p (a + 2) = q (a + 2)) (h3 : p (a + 3) = q (a + 3)) :
    rd32 p a = rd32 q a := by
  unfold rd32; rw [rd16_congr h0 h1, rd16_congr h2 h3]

/-! Loads of one byte. -/

theorem rd8_wr8_same (m : Bytes) (a v : Nat) : rd8 (wr8 m a v) a = v % 256 := by
  simp [rd8, wr8]

theorem rd8_wr8 {m : Bytes} {a v b : Nat} (h : b ≠ a) : rd8 (wr8 m a v) b = rd8 m b :=
  rd8_congr (wr8_at_ne h)

theorem rd8_wr16 {m : Bytes} {a v b : Nat} (h : b < a ∨ a + 2 ≤ b) :
    rd8 (wr16 m a v) b = rd8 m b :=
  rd8_congr (wr16_at_out h)

theorem rd8_wr32 {m : Bytes} {a v b : Nat} (h : b < a ∨ a + 4 ≤ b) :
    rd8 (wr32 m a v) b = rd8 m b :=
  rd8_congr (wr32_at_out h)

theorem rd8_memcpy_out {t f : Bytes} {d s n b : Nat} (h : b < d ∨ d + n ≤ b) :
    rd8 (memcpy t d f s n) b = rd8 t b :=
  rd8_congr (memcpy_at_out h)

theorem rd8_memcpy_in {t f : Bytes} {d s n b : Nat} (h1 : d ≤ b) (h2 : b < d + n) :
    rd8 (memcpy t d f s n) b = rd8 f (s + (b - d)) := by
  unfold rd8; rw [memcpy_at_in h1 h2]

/-! Loads of two bytes. -/

theorem rd16_wr16_same (m : Bytes) (a v : Nat) : rd16 (wr16 m a v) a = v % 65536 := by
  unfold rd16 wr16
  rw [rd8_wr8 (by omega), rd8_wr8_same, rd8_wr8_same]
  omega

theorem rd16_wr16 {m : Bytes} {a v b : Nat} (h : a + 2 ≤ b ∨ b + 2 ≤ a) :
    rd16 (wr16 m a v) b = rd16 m b :=
  rd16_congr (wr16_at_out (by omega)) (wr16_at_out (by omega))

/-! Loads of four bytes. -/

theorem rd32_wr32_same (m : Bytes) (a v : Nat) : rd32 (wr32 m a v) a = v % 2 ^ 32 := by
  unfold rd32 wr32
  rw [rd16_wr16 (by omega), rd16_wr16_same, rd16_wr16_same]
  omega

theorem rd32_wr8 {m : Bytes} {a v b : Nat} (h : a < b ∨ b + 4 ≤ a) :
    rd32 (wr8 m a v) b = rd32 m b :=
  rd32_congr (wr8_at_ne (by omega)) (wr8_at_ne (by omega)) (wr8_at_ne (by omega))
    (wr8_at_ne (by omega))

theorem rd32_wr16 {m : Bytes} {a v b : Nat} (h : a + 2 ≤ b ∨ b + 4 ≤ a) :
    rd32 (wr16 m a v) b = rd32 m b :=
  rd32_congr (wr16_at_out (by omega)) (wr16_at_out (by omega)) (wr16_at_out (by omega))
    (wr16_at_out (by omega))

theorem rd32_wr32 {m : Bytes} {a v b : Nat} (h : a + 4 ≤ b ∨ b + 4 ≤ a) :
    rd32 (wr32 m a v) b = rd32 m b :=
  rd32_congr (wr32_at_out (by omega)) (wr32_at_out (by omega)) (wr32_at_out (by omega))
    (wr32_at_out (by omega))

theorem rd32_memcpy_out {t f : Bytes} {d s n b : Nat} (h : d + n ≤ b ∨ b + 4 ≤ d) :
    rd32 (memcpy t d f s n) b = rd32 t b :=
  rd32_congr (memcpy_at_out (by omega)) (memcpy_at_out (by omega)) (memcpy_at_out (by omega))
    (memcpy_at_out (by omega))

theorem and_low_mask (x : Nat) : x &&& 0x00000000ffffffff = x % 2 ^ 32 :=
  Nat.and_pow_two_sub_one_eq_mod x 32

theorem and_high_mask_shift (x : Nat) :
    (x &&& 0xffffffff00000000) >>> 32 = x % 2 ^ 64 / 2 ^ 32 := by
  have hmask : (0xffffffff00000000 : Nat) = (2 ^ 32 - 1) <<< 32 := by decide
  rw [hmask, ← Nat.shiftRight_eq_div_pow]
  apply Nat.eq_of_testBit_eq
  intro i
  simp only [Nat.testBit_shiftRight, Nat.testBit_and, Nat.testBit_shiftLeft,
    Nat.testBit_mod_two_pow, Nat.testBit_two_pow_sub_one]
  by_cases h : i < 32
  · have h2 : 32 + i < 64 := by omega
    simp [h, h2]
  · have h2 : ¬ 32 + i < 64 := by omega
    simp [h, h2]

theorem join_halves (x : Nat) (h : x < 2 ^ 64) :
    ((x % 2 ^ 64 / 2 ^ 32) <<< 32) ||| (x % 2 ^ 32) = x := by
  rw [Nat.shiftLeft_eq, Nat.mul_comm, ← Nat.mul_add_lt_is_or (Nat.mod_lt _ (by decide))]
  omega

theorem sub64_of_le {a b : Nat} (ha : a < 2 ^ 64) (hb : b ≤ a) : sub64 a b = a - b := by
  unfold sub64 u64
  omega

theorem rd8_memcpy_off {t f : Bytes} {d s n off : Nat} (h : off < n) :
    rd8 (memcpy t d f s n) (d + off) = rd8 f (s + off) := by
  rw [rd8_memcpy_in (by omega) (by omega), Nat.add_sub_cancel_left]

theorem rd32_memcpy_off {t f : Bytes} {d s n off : Nat} (h : off + 4 ≤ n) :
    rd32 (memcpy t d f s n) (d + off) = rd32 f (s + off) := by
  unfold rd32 rd16
  rw [rd8_memcpy_in (by omega) (by omega), rd8_memcpy_in (by omega) (by omega),
    rd8_memcpy_in (by omega) (by omega), rd8_memcpy_in (by omega) (by omega)]
  have e0 : d + off - d = off := by omega
  have e1 : d + off + 1 - d = off + 1 := by omega
  have e2 : d + off + 2 - d = off + 2 := by omega
  have e3 : d + off + 2 + 1 - d = off + 2 + 1 := by omega
  rw [e0, e1, e2, e3]
  simp only [Nat.add_assoc]

/-! ## The phases of load_linux -/

@[simp] theorem emit_params (s : State) (e : Event) : (s.emit e).params = s.params := rfl

@[simp] theorem emit_mem (s : State) (e : Event) : (s.emit e).mem = s.mem := rfl

@[simp] theorem emit_trace (s : State) (e : Event) : (s.emit e).trace = s.trace ++ [e] := rfl

theorem parse_header_mem (E : Env) (L : Layout) (gp : guest_params) (s : State) :
    (parse_header E L gp s).mem = s.mem := by
  unfold parse_header
  simp only [State.copy_in, State.store8, State.store32, State.emit]
  split <;> split <;> rfl

/-- The header copy is the one `memcpy` of the parsing phase, and the phase
calls nothing but `memcpy` and `pr_info`. -/
theorem parse_header_trace (E : Env) (L : Layout) (gp : guest_params) (s : State) :
    ∃ rest, (parse_header E L gp s).trace = s.trace ++
        Event.memcpy (E.params + L.hdr) (E.va gp.kernel_start + SETUP_HDR_OFFSET)
          (0x0202 + rd8 s.mem (E.va gp.kernel_start + 0x0201)) :: rest ∧
      (∀ e ∈ rest, e.isCall = false ∧ e.isMemcpy = false) ∧
      Event.store (E.params + (L.hdr + L.type_of_loader)) 1 0xFF ∈ rest := by
  unfold parse_header
  simp only [State.copy_in, State.store8, State.store32, State.emit]
  split <;> split <;>
    exact ⟨_, by simp only [List.append_assoc, List.singleton_append, List.cons_append,
      List.nil_append]; rfl, by simp [Event.isCall, Event.isMemcpy], by simp⟩

theorem parse_header_loadflags (E : Env) (L : Layout) (gp : guest_params) (p0 m0 : Bytes)
    (hL : L.wf) :
    rd8 (parse_header E L gp (zero_params E L p0 m0)).params (L.hdr + L.loadflags)
      = image_hdr8 E gp m0 L.loadflags := by
  obtain ⟨h1, h2, h3, h4, h5, h6, h7, h8, h9, h10, h11, h12, h13, h14, h15, h16⟩ := hL
  unfold parse_header image_hdr8
  simp only [State.copy_in, State.store8, State.store32, State.emit, zero_params]
  split <;> split <;>
    simp (disch := omega) only [rd8_wr8, rd8_wr32, rd8_memcpy_off]

theorem parse_header_setup_sects (E : Env) (L : Layout) (gp : guest_params) (p0 m0 : Bytes)
    (hL : L.wf) :
    rd8 (parse_header E L gp (zero_params E L p0 m0)).params (L.hdr + L.setup_sects)
      = if image_hdr8 E gp m0 L.setup_sects = 0 then 4 else image_hdr8 E gp m0 L.setup_sects := by
  obtain ⟨h1, h2, h3, h4, h5, h6, h7, h8, h9, h10, h11, h12, h13, h14, h15, h16⟩ := hL
  unfold parse_header image_hdr8
  simp only [State.copy_in, State.store8, State.store32, State.emit, zero_params]
  simp (disch := omega) only [rd8_memcpy_off]
  split <;> split <;>
    simp (disch := omega) only [rd8_wr8, rd8_wr32, rd8_memcpy_off, rd8_wr8_same]

theorem parse_header_ramdisk (E : Env) (L : Layout) (gp : guest_params) (p0 m0 : Bytes)
    (hL : L.wf) (hlt : gp.initrd_start < gp.initrd_end) :
    rd32 (parse_header E L gp (zero_params E L p0 m0)).params (L.hdr + L.ramdisk_image)
        = gp.initrd_start % 2 ^ 32 ∧
    rd32 (parse_header E L gp (zero_params E L p0 m0)).params (L.hdr + L.ramdisk_size)
        = sub64 gp.initrd_end gp.initrd_start % 2 ^ 32 := by
  obtain ⟨h1, h2, h3, h4, h5, h6, h7, h8, h9, h10, h11, h12, h13, h14, h15, h16⟩ := hL
  unfold parse_header
  simp only [State.copy_in, State.store8, State.store32, State.emit, zero_params, hlt,
    if_true]
  constructor
  · rw [rd32_wr32 (by omega), rd32_wr32_same, and_low_mask, Nat.mod_mod]
  · rw [rd32_wr32_same, and_low_mask, Nat.mod_mod]

theorem parse_header_no_ramdisk (E : Env) (L : Layout) (gp : guest_params) (p0 m0 : Bytes)
    (hL : L.wf) (hge : gp.initrd_end ≤ gp.initrd_start) :
    rd32 (parse_header E L gp (zero_params E L p0 m0)).params (L.hdr + L.ramdisk_image)
        = image_hdr32 E gp m0 L.ramdisk_image ∧
    rd32 (parse_header E L gp (zero_params E L p0 m0)).params (L.hdr + L.ramdisk_size)
        = image_hdr32 E gp m0 L.ramdisk_size := by
  obtain ⟨h1, h2, h3, h4, h5, h6, h7, h8, h9, h10, h11, h12, h13, h14, h15, h16⟩ := hL
  have hno : ¬ gp.initrd_start < gp.initrd_end := by omega
  unfold parse_header image_hdr32
  simp only [State.copy_in, State.store8, State.store32, State.emit, zero_params, hno,
    if_false]
  constructor <;> split <;>
    simp (disch := omega) only [rd32_wr8, rd32_memcpy_off]

/-- The effects of the filling phase, in program order. -/
theorem fill_params_trace (E : Env) (L : Layout) (gp : guest_params) (s : State) :
    ∃ f c, (fill_params E L gp s).trace = s.trace ++
      [Event.store (E.params + (L.hdr + L.heap_end_ptr)) 2 0xde00,
       Event.store (E.params + (L.hdr + L.loadflags)) 1 f,
       Event.store (E.params + (L.hdr + L.vid_mode)) 2 0xffff,
       Event.store (E.params + (L.hdr + L.cmd_line_ptr)) 4 (u64 E.cmdline % 2 ^ 32),
       Event.pr_info Msg.cmdline [c],
       Event.store (E.params + L.ext_ramdisk_image) 4
         (((gp.initrd_start &&& 0xffffffff00000000) >>> 32) % 2 ^ 32),
       Event.store (E.params + L.ext_ramdisk_size) 4
         (((sub64 gp.initrd_end gp.initrd_start &&& 0xffffffff00000000) >>> 32) % 2 ^ 32),
       Event.store (E.params + L.e820_entries) 1 (gp.e820_entries % 2 ^ 8),
       Event.memcpy (E.params + L.e820_table) gp.e820_table
         (gp.e820_entries * L.sizeof_boot_e820_entry)] := by
  unfold fill_params
  simp only [State.copy_in, State.store8, State.store16, State.store32, State.emit,
    List.append_assoc, List.singleton_append, List.cons_append, List.nil_append]
  exact ⟨_, _, rfl⟩

theorem fill_params_setup_sects (E : Env) (L : Layout) (gp : guest_params) (s : State)
    (hL : L.wf) :
    rd8 (fill_params E L gp s).params (L.hdr + L.setup_sects)
      = rd8 s.params (L.hdr + L.setup_sects) := by
  obtain ⟨h1, h2, h3, h4, h5, h6, h7, h8, h9, h10, h11, h12, h13, h14, h15, h16⟩ := hL
  unfold fill_params
  simp only [State.copy_in, State.store8, State.store16, State.store32, State.emit]
  simp (disch := omega) only [rd8_wr8, rd8_wr16, rd8_wr32, rd8_memcpy_out]

theorem fill_params_ramdisk (E : Env) (L : Layout) (gp : guest_params) (s : State)
    (hL : L.wf) :
    rd32 (fill_params E L gp s).params (L.hdr + L.ramdisk_image)
        = rd32 s.params (L.hdr + L.ramdisk_image) ∧
    rd32 (fill_params E L gp s).params (L.hdr + L.ramdisk_size)
        = rd32 s.params (L.hdr + L.ramdisk_size) := by
  obtain ⟨h1, h2, h3, h4, h5, h6, h7, h8, h9, h10, h11, h12, h13, h14, h15, h16⟩ := hL
  unfold fill_params
  simp only [State.copy_in, State.store8, State.store16, State.store32, State.emit]
  constructor <;>
    simp (disch := omega) only [rd32_wr8, rd32_wr16, rd32_wr32, rd32_memcpy_out]

theorem fill_params_ext (E : Env) (L : Layout) (gp : guest_params) (s : State)
    (hL : L.wf) :
    rd32 (fill_params E L gp s).params L.ext_ramdisk_image
        = gp.initrd_start % 2 ^ 64 / 2 ^ 32 ∧
    rd32 (fill_params E L gp s).params L.ext_ramdisk_size
        = sub64 gp.initrd_end gp.initrd_start / 2 ^ 32 := by
  obtain ⟨h1, h2, h3, h4, h5, h6, h7, h8, h9, h10, h11, h12, h13, h14, h15, h16⟩ := hL
  have hs : sub64 gp.initrd_end gp.initrd_start < 2 ^ 64 := by
    unfold sub64; exact Nat.mod_lt _ (by decide)
  unfold fill_params
  simp only [State.copy_in, State.store8, State.store16, State.store32, State.emit]
  constructor
  · simp (disch := omega) only [rd32_wr8, rd32_wr32, rd32_memcpy_out, rd32_wr32_same,
      and_high_mask_shift]
    omega
  · simp (disch := omega) only [rd32_wr8, rd32_wr32, rd32_memcpy_out, rd32_wr32_same,
      and_high_mask_shift]
    omega

theorem parse_header_stuck (E : Env) (L : Layout) (gp : guest_params) (s : State) :
    (parse_header E L gp s).stuck = s.stuck := by
  unfold parse_header
  simp only [State.copy_in, State.store8, State.store32, State.emit]
  split <;> split <;> rfl

theorem fill_params_stuck (E : Env) (L : Layout) (gp : guest_params) (s : State) :
    (fill_params E L gp s).stuck = s.stuck := rfl

theorem relocate_and_enter_params (E : Env) (L : Layout) (gp : guest_params) (s : State) :
    (relocate_and_enter E L gp s).params = s.params := by
  simp only [relocate_and_enter, State.copy_mem]
  split_ifs <;> rfl

/-- The relocation calls `memcpy`, and then the entry point when the copy has
returned. -/
theorem relocate_and_enter_trace (E : Env) (L : Layout) (gp : guest_params) (s : State)
    (hs : s.stuck = false) :
    (relocate_and_enter E L gp s).trace = s.trace ++
      Event.memcpy (E.va E.KERNEL_START)
         (u64 (E.va gp.kernel_start + (rd8 s.params (L.hdr + L.setup_sects) + 1) * SECT_SIZE))
         (sub64 gp.kernel_end
           (u64 (E.va gp.kernel_start + (rd8 s.params (L.hdr + L.setup_sects) + 1) * SECT_SIZE))) ::
      (if u64 (E.va gp.kernel_start + (rd8 s.params (L.hdr + L.setup_sects) + 1) * SECT_SIZE)
            + sub64 gp.kernel_end
              (u64 (E.va gp.kernel_start + (rd8 s.params (L.hdr + L.setup_sects) + 1) * SECT_SIZE))
            ≤ 2 ^ 64 ∧
          E.va E.KERNEL_START + sub64 gp.kernel_end
              (u64 (E.va gp.kernel_start + (rd8 s.params (L.hdr + L.setup_sects) + 1) * SECT_SIZE))
            ≤ 2 ^ 64
        then [Event.call (E.va E.KERNEL_START + 0x200) 0 E.params] else []) := by
  simp only [relocate_and_enter, State.copy_mem]
  split_ifs with h1 h2 h3
  · simp [hs] at h2
  · simp [State.emit]
  · rfl
  · simp at h3

/-- On a valid bzImage `load_linux` runs all of its phases. -/
theorem load_linux_valid (E : Env) (L : Layout) (gp : guest_params) (p0 m0 : Bytes)
    (hL : L.wf) (hv : valid_bzImage E L gp m0) :
    load_linux E L gp p0 m0 = relocate_and_enter E L gp
      (fill_params E L gp (parse_header E L gp (zero_params E L p0 m0))) := by
  obtain ⟨hm, hf⟩ := hv
  unfold magic_ok at hm
  unfold load_linux
  have hz : (zero_params E L p0 m0).mem = m0 := rfl
  simp only [hz, hm, ne_eq, not_true_eq_false, if_false, parse_header_loadflags E L gp p0 m0 hL,
    hf]

/-- The setup sectors that the relocation counts with. -/
theorem relocation_setup_sects (E : Env) (L : Layout) (gp : guest_params) (p0 m0 : Bytes)
    (hL : L.wf) :
    rd8 (fill_params E L gp (parse_header E L gp (zero_params E L p0 m0))).params
        (L.hdr + L.setup_sects)
      = effective_setup_sects E L gp m0 := by
  rw [fill_params_setup_sects E L gp _ hL, parse_header_setup_sects E L gp p0 m0 hL]
  rfl

theorem effective_setup_sects_ne_zero (E : Env) (L : Layout) (gp : guest_params) (m0 : Bytes) :
    effective_setup_sects E L gp m0 ≠ 0 := by
  unfold effective_setup_sects
  split <;> omega

theorem filled_stuck (E : Env) (L : Layout) (gp : guest_params) (p0 m0 : Bytes) :
    (fill_params E L gp (parse_header E L gp (zero_params E L p0 m0))).stuck = false := by
  rw [fill_params_stuck, parse_header_stuck]
  rfl

/-- The parsing and the filling phase call no function pointer. -/
theorem filled_no_call (E : Env) (L : Layout) (gp : guest_params) (p0 m0 : Bytes) :
    ∀ e ∈ (fill_params E L gp (parse_header E L gp (zero_params E L p0 m0))).trace,
      e.isCall = false := by
  obtain ⟨rest, ht, hr, _⟩ := parse_header_trace E L gp (zero_params E L p0 m0)
  obtain ⟨f, c, hfill⟩ := fill_params_trace E L gp (parse_header E L gp (zero_params E L p0 m0))
  have hzt : (zero_params E L p0 m0).trace = [Event.memset E.params 0 L.sizeof_boot_params] := rfl
  rw [hzt] at ht
  rw [ht] at hfill
  intro e he
  rw [hfill] at he
  simp only [List.mem_append, List.mem_cons, List.mem_singleton, List.not_mem_nil,
    or_false] at he
  rcases he with (rfl | rfl | he) | he
  · rfl
  · rfl
  · exact (hr e he).1
  · rcases he with rfl | rfl | rfl | rfl | rfl | rfl | rfl | rfl | rfl <;> rfl

/-- The trace of a load of a valid bzImage ends with the copy of the kernel
body, followed by the call of the entry point when the copy has returned. -/
theorem load_linux_valid_trace (E : Env) (L : Layout) (gp : guest_params) (p0 m0 : Bytes)
    (hL : L.wf) (hv : valid_bzImage E L gp m0) :
    (load_linux E L gp p0 m0).trace =
      (fill_params E L gp (parse_header E L gp (zero_params E L p0 m0))).trace ++
      Event.memcpy (E.va E.KERNEL_START) (body_src E L gp m0) (body_len E L gp m0) ::
      (if body_copy_fits E L gp m0
        then [Event.call (E.va E.KERNEL_START + 0x200) 0 E.params] else []) := by
  rw [load_linux_valid E L gp p0 m0 hL hv,
    relocate_and_enter_trace E L gp _ (filled_stuck E L gp p0 m0),
    relocation_setup_sects E L gp p0 m0 hL]
  rfl

/-- The count and the table that the filling phase copies from the descriptor. -/
theorem fill_params_e820 (E : Env) (L : Layout) (gp : guest_params) (s : State)
    (hL : L.wf) (hn : gp.e820_entries ≤ L.E820_MAX_ENTRIES) :
    rd8 (fill_params E L gp s).params L.e820_entries = gp.e820_entries ∧
    ∀ k, k < gp.e820_entries * L.sizeof_boot_e820_entry →
      (fill_params E L gp s).params (L.e820_table + k) = s.mem (gp.e820_table + k) := by
  obtain ⟨h1, h2, h3, h4, h5, h6, h7, h8, h9, h10, h11, h12, h13, h14, h15, h16⟩ := hL
  have hsz : gp.e820_entries * L.sizeof_boot_e820_entry
      ≤ L.E820_MAX_ENTRIES * L.sizeof_boot_e820_entry := Nat.mul_le_mul_right _ hn
  unfold fill_params
  simp only [State.copy_in, State.store8, State.store16, State.store32, State.emit]
  constructor
  · rw [rd8_memcpy_out (by omega), rd8_wr8_same]
    omega
  · intro k hk
    rw [memcpy_at_in (by omega) (by omega), Nat.add_sub_cancel_left]

/-- C1: when the 32-bit little-endian word at offset 0x202 of the image is not
the signature 0x53726448, `load_linux` returns after the zeroing of `params`
and one log line.  Memory is left as it was, so no byte reaches the guest load
address; the trace holds no `memcpy` and no call of the entry point; the run
is not stuck in a call and has written nothing past the end of `params`. -/
theorem load_linux_bad_magic (E : Env) (L : Layout) (gp : guest_params) (p0 m0 : Bytes)
    (h : ¬ magic_ok E gp m0) :
    (load_linux E L gp p0 m0).mem = m0 ∧
    (load_linux E L gp p0 m0).params = memset p0 0 0 L.sizeof_boot_params ∧
    (load_linux E L gp p0 m0).trace =
      [Event.memset E.params 0 L.sizeof_boot_params, Event.pr_info Msg.kernel_too_old []] ∧
    (load_linux E L gp p0 m0).stuck = false ∧
    (load_linux E L gp p0 m0).overrun = 0 := by
  unfold magic_ok at h
  have hz : (zero_params E L p0 m0).mem = m0 := rfl
  unfold load_linux
  simp only [hz, ne_eq, h, not_false_eq_true, if_true]
  exact ⟨rfl, rfl, rfl, rfl, rfl⟩

/-- An instance: the load of an image of zero bytes. -/
theorem load_linux_bad_magic_witness :
    ¬ magic_ok idEnv gpPlain zeros ∧
    (load_linux idEnv zeroPage gpPlain zeros zeros).trace =
      [Event.memset idEnv.params 0 zeroPage.sizeof_boot_params,
       Event.pr_info Msg.kernel_too_old []] :=
  ⟨by decide, (load_linux_bad_magic idEnv zeroPage gpPlain zeros zeros (by decide)).2.2.1⟩

/-- C2: when the signature is there and bit 0 of `loadflags` in the setup
header is clear, `load_linux` returns right after the parsing of the header.
Memory is left as it was, so no byte reaches the guest load address; the only
`memcpy` of the run is the header copy into `params`, the entry point is not
called, the last effect is the log line of the unsupported format, and the run
is not stuck in a call. -/
theorem load_linux_not_bzImage (E : Env) (L : Layout) (gp : guest_params) (p0 m0 : Bytes)
    (hL : L.wf) (hm : magic_ok E gp m0) (hf : image_hdr8 E gp m0 L.loadflags &&& 0x01 = 0) :
    (load_linux E L gp p0 m0).mem = m0 ∧
    (∀ e ∈ (load_linux E L gp p0 m0).trace, e.isCall = false) ∧
    (load_linux E L gp p0 m0).trace.filter Event.isMemcpy =
      [Event.memcpy (E.params + L.hdr) (E.va gp.kernel_start + SETUP_HDR_OFFSET)
        (0x0202 + rd8 m0 (E.va gp.kernel_start + 0x0201))] ∧
    (load_linux E L gp p0 m0).trace.getLast? = some (Event.pr_info Msg.not_bzImage []) ∧
    (load_linux E L gp p0 m0).stuck = false := by
  unfold magic_ok at hm
  have hz : (zero_params E L p0 m0).mem = m0 := rfl
  have hrun : load_linux E L gp p0 m0 =
      (parse_header E L gp (zero_params E L p0 m0)).emit (Event.pr_info Msg.not_bzImage []) := by
    unfold load_linux
    simp only [hz, hm, ne_eq, not_true_eq_false, if_false,
      parse_header_loadflags E L gp p0 m0 hL, hf, if_true]
  obtain ⟨rest, ht, hr, _⟩ := parse_header_trace E L gp (zero_params E L p0 m0)
  have hnomc : rest.filter Event.isMemcpy = [] := by
    rw [List.filter_eq_nil_iff]
    intro e he
    simp [(hr e he).2]
  have hst : ((parse_header E L gp (zero_params E L p0 m0)).emit
      (Event.pr_info Msg.not_bzImage [])).stuck = false := by
    show (parse_header E L gp (zero_params E L p0 m0)).stuck = false
    rw [parse_header_stuck]
    rfl
  rw [hrun, emit_mem, emit_trace, parse_header_mem, ht, hz]
  refine ⟨rfl, ?_, ?_, ?_, hst⟩
  · intro e he
    simp only [zero_params, List.mem_append, List.mem_cons, List.mem_singleton,
      List.not_mem_nil, or_false] at he
    rcases he with (rfl | rfl | he) | rfl
    · rfl
    · rfl
    · exact (hr e he).1
    · rfl
  · simp [zero_params, List.filter_append, List.filter_cons, Event.isMemcpy, hnomc]
  · exact List.getLast?_concat _

/-- An instance: the load of an image with the signature and `loadflags` 0. -/
theorem load_linux_not_bzImage_witness :
    zeroPage.wf ∧ magic_ok idEnv gpPlain legacy_image ∧
    image_hdr8 idEnv gpPlain legacy_image zeroPage.loadflags &&& 0x01 = 0 ∧
    (load_linux idEnv zeroPage gpPlain zeros legacy_image).mem = legacy_image :=
  ⟨by decide, by decide, by decide,
    (load_linux_not_bzImage idEnv zeroPage gpPlain zeros legacy_image
      (by decide) (by decide) (by decide)).1⟩

/-- C4: with a ramdisk in the descriptor (`initrd_start < initrd_end`, 64-bit
values) and a valid bzImage, the populated `params` give back the descriptor:
`(ext_ramdisk_image << 32) | ramdisk_image` is `initrd_start` and
`(ext_ramdisk_size << 32) | ramdisk_size` is `initrd_end - initrd_start`. -/
theorem ramdisk_round_trip (E : Env) (L : Layout) (gp : guest_params) (p0 m0 : Bytes)
    (hL : L.wf) (hv : valid_bzImage E L gp m0) (hgp : gp.wf)
    (hlt : gp.initrd_start < gp.initrd_end) :
    (rd32 (load_linux E L gp p0 m0).params L.ext_ramdisk_image <<< 32)
        ||| rd32 (load_linux E L gp p0 m0).params (L.hdr + L.ramdisk_image)
      = gp.initrd_start ∧
    (rd32 (load_linux E L gp p0 m0).params L.ext_ramdisk_size <<< 32)
        ||| rd32 (load_linux E L gp p0 m0).params (L.hdr + L.ramdisk_size)
      = gp.initrd_end - gp.initrd_start := by
  obtain ⟨_, _, hs, he⟩ := hgp
  have hsub : sub64 gp.initrd_end gp.initrd_start = gp.initrd_end - gp.initrd_start :=
    sub64_of_le he (Nat.le_of_lt hlt)
  have hd : gp.initrd_end - gp.initrd_start < 2 ^ 64 := by omega
  rw [load_linux_valid E L gp p0 m0 hL hv, relocate_and_enter_params,
    (fill_params_ext E L gp _ hL).1, (fill_params_ext E L gp _ hL).2,
    (fill_params_ramdisk E L gp _ hL).1, (fill_params_ramdisk E L gp _ hL).2,
    (parse_header_ramdisk E L gp p0 m0 hL hlt).1, (parse_header_ramdisk E L gp p0 m0 hL hlt).2,
    hsub]
  refine ⟨join_halves _ hs, ?_⟩
  have h := join_halves _ hd
  rw [Nat.mod_eq_of_lt hd] at h
  exact h

/-- An instance: a ramdisk from 0x123456000 to 0x323457000. -/
theorem ramdisk_round_trip_witness :
    zeroPage.wf ∧ valid_bzImage idEnv zeroPage gpInitrd (image_at 0x100000 10) ∧ gpInitrd.wf ∧
    gpInitrd.initrd_start < gpInitrd.initrd_end ∧
    (rd32 (load_linux idEnv zeroPage gpInitrd zeros (image_at 0x100000 10)).params
        zeroPage.ext_ramdisk_image <<< 32)
      ||| rd32 (load_linux idEnv zeroPage gpInitrd zeros (image_at 0x100000 10)).params
        (zeroPage.hdr + zeroPage.ramdisk_image)
      = gpInitrd.initrd_start :=
  ⟨by decide, by decide, by decide, by decide,
    (ramdisk_round_trip idEnv zeroPage gpInitrd zeros (image_at 0x100000 10)
      (by decide) (by decide) (by decide) (by decide)).1⟩

/-- C5: on a valid bzImage the kernel-body copy reads from
`image + (s + 1) * 512`, where `s` is the `setup_sects` of the header when that
is not 0 and 4 when it is.  `s` is what `params` holds when the offset is
computed, it is never 0, a header with `setup_sects = 0` gives the offset 2560
and one with `setup_sects = 10` gives 5632.  The copy is the last `memcpy` of
the run; the call of the entry point follows it when the copy stays in the
64-bit address space and so returns. -/
theorem kernel_body_source (E : Env) (L : Layout) (gp : guest_params) (p0 m0 : Bytes)
    (hL : L.wf) (hv : valid_bzImage E L gp m0) :
    rd8 (load_linux E L gp p0 m0).params (L.hdr + L.setup_sects)
      = effective_setup_sects E L gp m0 ∧
    effective_setup_sects E L gp m0 ≠ 0 ∧
    (∃ pre n,
      (load_linux E L gp p0 m0).trace =
        pre ++ Event.memcpy (E.va E.KERNEL_START)
                  (u64 (E.va gp.kernel_start + (effective_setup_sects E L gp m0 + 1) * 512)) n ::
          (if u64 (E.va gp.kernel_start + (effective_setup_sects E L gp m0 + 1) * 512) + n
                ≤ 2 ^ 64 ∧ E.va E.KERNEL_START + n ≤ 2 ^ 64
            then [Event.call (E.va E.KERNEL_START + 0x200) 0 E.params] else []) ∧
      ∀ e ∈ pre, e.isCall = false) ∧
    (E.va gp.kernel_start + (effective_setup_sects E L gp m0 + 1) * 512 < 2 ^ 64 →
      u64 (E.va gp.kernel_start + (effective_setup_sects E L gp m0 + 1) * 512)
        = E.va gp.kernel_start + (effective_setup_sects E L gp m0 + 1) * 512) ∧
    (image_hdr8 E gp m0 L.setup_sects = 0 →
      (effective_setup_sects E L gp m0 + 1) * 512 = 2560) ∧
    (image_hdr8 E gp m0 L.setup_sects = 10 →
      (effective_setup_sects E L gp m0 + 1) * 512 = 5632) := by
  refine ⟨?_, effective_setup_sects_ne_zero E L gp m0,
    ⟨_, _, load_linux_valid_trace E L gp p0 m0 hL hv, filled_no_call E L gp p0 m0⟩, ?_, ?_, ?_⟩
  · rw [load_linux_valid E L gp p0 m0 hL hv, relocate_and_enter_params,
      relocation_setup_sects E L gp p0 m0 hL]
  · intro h
    exact Nat.mod_eq_of_lt h
  · intro h
    simp [effective_setup_sects, h]
  · intro h
    simp [effective_setup_sects, h]

/-- An instance: the load of a bzImage with 10 setup sectors at 0x100000. -/
theorem kernel_body_source_witness :
    zeroPage.wf ∧ valid_bzImage idEnv zeroPage gpPlain (image_at 0x100000 10) ∧
    rd8 (load_linux idEnv zeroPage gpPlain zeros (image_at 0x100000 10)).params
        (zeroPage.hdr + zeroPage.setup_sects)
      = effective_setup_sects idEnv zeroPage gpPlain (image_at 0x100000 10) :=
  ⟨by decide, by decide,
    (kernel_body_source idEnv zeroPage gpPlain zeros (image_at 0x100000 10)
      (by decide) (by decide)).1⟩

/-- C6, as the code has it: when `__va` leaves `kernel_start` as it is and the
image is at least `(setup_sects + 1) * 512` bytes long, the copy of the kernel
body reads the `kernel_end - (kernel_start + (setup_sects + 1) * 512)` bytes
from `kernel_start + (setup_sects + 1) * 512` up to `kernel_end`, and none at
or past `kernel_end`.  The call of the entry point follows the copy when its
destination range stays in the 64-bit address space. -/
theorem kernel_body_copy_in_bounds (E : Env) (L : Layout) (gp : guest_params) (p0 m0 : Bytes)
    (hL : L.wf) (hv : valid_bzImage E L gp m0) (hgp : gp.wf)
    (hid : E.va gp.kernel_start = gp.kernel_start)
    (hlen : gp.kernel_start + (effective_setup_sects E L gp m0 + 1) * 512 ≤ gp.kernel_end) :
    ∃ pre src n,
      (load_linux E L gp p0 m0).trace =
        pre ++ Event.memcpy (E.va E.KERNEL_START) src n ::
          (if E.va E.KERNEL_START + n ≤ 2 ^ 64
            then [Event.call (E.va E.KERNEL_START + 0x200) 0 E.params] else []) ∧
      (∀ e ∈ pre, e.isCall = false) ∧
      src = gp.kernel_start + (effective_setup_sects E L gp m0 + 1) * 512 ∧
      n = gp.kernel_end - (gp.kernel_start + (effective_setup_sects E L gp m0 + 1) * 512) ∧
      src + n = gp.kernel_end := by
  obtain ⟨_, hke, _, _⟩ := hgp
  have hsrc : u64 (E.va gp.kernel_start + (effective_setup_sects E L gp m0 + 1) * SECT_SIZE)
      = gp.kernel_start + (effective_setup_sects E L gp m0 + 1) * 512 := by
    rw [hid]
    unfold u64 SECT_SIZE
    omega
  have hn : body_len E L gp m0
      = gp.kernel_end - (gp.kernel_start + (effective_setup_sects E L gp m0 + 1) * 512) := by
    unfold body_len body_src
    rw [hsrc, sub64_of_le hke hlen]
  have hs : body_src E L gp m0
      = gp.kernel_start + (effective_setup_sects E L gp m0 + 1) * 512 := hsrc
  have hif : body_copy_fits E L gp m0 ↔ E.va E.KERNEL_START + body_len E L gp m0 ≤ 2 ^ 64 := by
    unfold body_copy_fits
    rw [hs, hn]
    constructor
    · exact fun h => h.2
    · exact fun h => ⟨by omega, h⟩
  refine ⟨_, _, _, ?_, filled_no_call E L gp p0 m0, hs, hn, ?_⟩
  · rw [load_linux_valid_trace E L gp p0 m0 hL hv]
    simp only [hif]
  · rw [hs, hn]
    omega

/-- An instance: a kernel of 0x4000 bytes with 10 setup sectors, `__va` the identity. -/
theorem kernel_body_copy_in_bounds_witness :
    zeroPage.wf ∧ valid_bzImage idEnv zeroPage gpPlain (image_at 0x100000 10) ∧ gpPlain.wf ∧
    idEnv.va gpPlain.kernel_start = gpPlain.kernel_start ∧
    gpPlain.kernel_start
      + (effective_setup_sects idEnv zeroPage gpPlain (image_at 0x100000 10) + 1) * 512
      ≤ gpPlain.kernel_end ∧
    ∃ pre src n,
      (load_linux idEnv zeroPage gpPlain zeros (image_at 0x100000 10)).trace =
        pre ++ Event.memcpy (idEnv.va idEnv.KERNEL_START) src n ::
          (if idEnv.va idEnv.KERNEL_START + n ≤ 2 ^ 64
            then [Event.call (idEnv.va idEnv.KERNEL_START + 0x200) 0 idEnv.params] else []) ∧
      (∀ e ∈ pre, e.isCall = false) ∧
      src = gpPlain.kernel_start
        + (effective_setup_sects idEnv zeroPage gpPlain (image_at 0x100000 10) + 1) * 512 ∧
      n = gpPlain.kernel_end - (gpPlain.kernel_start
        + (effective_setup_sects idEnv zeroPage gpPlain (image_at 0x100000 10) + 1) * 512) ∧
      src + n = gpPlain.kernel_end :=
  ⟨by decide, by decide, by decide, by decide, by decide,
    kernel_body_copy_in_bounds idEnv zeroPage gpPlain zeros (image_at 0x100000 10)
      (by decide) (by decide) (by decide) (by decide) (by decide)⟩

/-- C6 fails as stated.  With `__va` the identity and an image of 0x400 bytes
whose header says 4 setup sectors, the copy of the kernel body starts at
0x100A00, past `kernel_end` = 0x100400, and its length wraps to 2^64 - 0x600.
With `__va` a high-half mapping and an image that is long enough, the length
is taken between a translated and an untranslated address and the copy runs
past the translated `kernel_end`. -/
theorem kernel_body_copy_unbounded :
    (valid_bzImage idEnv zeroPage gpShort (image_at 0x100000 4) ∧
      Event.memcpy 0x1000000 0x100A00 (2 ^ 64 - 0x600)
        ∈ (load_linux idEnv zeroPage gpShort zeros (image_at 0x100000 4)).trace ∧
      ¬ body_copy_bounded idEnv zeroPage gpShort zeros (image_at 0x100000 4)) ∧
    (valid_bzImage highEnv zeroPage gpPlain (image_at 0xffffffff80100000 4) ∧
      Event.memcpy 0xffffffff81000000 0xffffffff80100A00 0x80003600
        ∈ (load_linux highEnv zeroPage gpPlain zeros (image_at 0xffffffff80100000 4)).trace ∧
      ¬ body_copy_bounded highEnv zeroPage gpPlain zeros (image_at 0xffffffff80100000 4)) := by
  have h1 : Event.memcpy 0x1000000 0x100A00 (2 ^ 64 - 0x600)
      ∈ (load_linux idEnv zeroPage gpShort zeros (image_at 0x100000 4)).trace := by decide
  have h2 : Event.memcpy 0xffffffff81000000 0xffffffff80100A00 0x80003600
      ∈ (load_linux highEnv zeroPage gpPlain zeros (image_at 0xffffffff80100000 4)).trace := by
    decide
  refine ⟨⟨by decide, h1, ?_⟩, ⟨by decide, h2, ?_⟩⟩
  · intro hb
    have := hb _ _ h1
    revert this
    decide
  · intro hb
    have := hb _ _ h2
    revert this
    decide

/-- The E820 copy itself is faithful: with a count `n` within the capacity of
the table, `e820_entries` of `params` is `n` and the bytes of the first `n`
entries of the table of `params` are those of the table of the descriptor. -/
theorem e820_copy_fidelity (E : Env) (L : Layout) (gp : guest_params) (p0 m0 : Bytes)
    (hL : L.wf) (hv : valid_bzImage E L gp m0) (hn : gp.e820_entries ≤ L.E820_MAX_ENTRIES) :
    rd8 (load_linux E L gp p0 m0).params L.e820_entries = gp.e820_entries ∧
    ∀ k, k < gp.e820_entries * L.sizeof_boot_e820_entry →
      (load_linux E L gp p0 m0).params (L.e820_table + k) = m0 (gp.e820_table + k) := by
  have hmem : (parse_header E L gp (zero_params E L p0 m0)).mem = m0 :=
    parse_header_mem E L gp _
  obtain ⟨hcnt, htab⟩ :=
    fill_params_e820 E L gp (parse_header E L gp (zero_params E L p0 m0)) hL hn
  rw [hmem] at htab
  rw [load_linux_valid E L gp p0 m0 hL hv, relocate_and_enter_params]
  exact ⟨hcnt, htab⟩

/-- C7 at a failing input: a valid bzImage with the byte 0xBB at offset 0x2e4 and
a descriptor with one E820 entry.  After the load the first byte of entry 1 of
the table of `params` (offset 0x2d0 + 20), an entry past the count, holds 0xBB:
the header copy of 0x202 bytes from the member `hdr` at 0x1f1 has written it. -/
theorem e820_entry_past_count_not_zero :
    valid_bzImage idEnv zeroPage gpOneEntry (image_at 0x100000 10) ∧
    gpOneEntry.e820_entries = 1 ∧
    rd8 (load_linux idEnv zeroPage gpOneEntry zeros (image_at 0x100000 10)).params
      (zeroPage.e820_table + 1 * zeroPage.sizeof_boot_e820_entry) = 0xBB := by
  decide

/-- Outside the range of the header copy and outside the additional fields
that the loader writes, `params` is zero after the load, whatever it held
before. -/
theorem params_zero_outside_writes (E : Env) (L : Layout) (gp : guest_params) (p0 m0 : Bytes)
    (hL : L.wf) (hv : valid_bzImage E L gp m0) (x : Nat) (hx : x < L.sizeof_boot_params)
    (hhdr : x < L.hdr ∨ L.hdr + (0x0202 + rd8 m0 (E.va gp.kernel_start + 0x0201)) ≤ x)
    (himg : x < L.ext_ramdisk_image ∨ L.ext_ramdisk_image + 4 ≤ x)
    (hsz : x < L.ext_ramdisk_size ∨ L.ext_ramdisk_size + 4 ≤ x)
    (hcnt : x ≠ L.e820_entries)
    (htab : x < L.e820_table ∨
      L.e820_table + gp.e820_entries * L.sizeof_boot_e820_entry ≤ x) :
    (load_linux E L gp p0 m0).params x = 0 := by
  obtain ⟨h1, h2, h3, h4, h5, h6, h7, h8, h9, h10, h11, h12, h13, h14, h15, h16⟩ := hL
  rw [load_linux_valid E L gp p0 m0
    ⟨h1, h2, h3, h4, h5, h6, h7, h8, h9, h10, h11, h12, h13, h14, h15, h16⟩ hv,
    relocate_and_enter_params]
  unfold fill_params parse_header
  simp only [State.copy_in, State.store8, State.store16, State.store32, State.emit, zero_params]
  split <;> split <;>
    simp (disch := omega) only [memcpy_at_out, wr8_at_ne, wr16_at_out, wr32_at_out,
      memset_at_in, ne_eq, not_false_eq_true]

/-- C8 at a failing input: a valid bzImage with the byte 0xAA at offset 0x2d0 and
a descriptor with an empty E820 table.  The byte at offset 0x2d0 of `params`
lies past the embedded setup header (which ends at 0x1f1 + 0x7b) and in none of
the fields the loader fills, and it holds 0xAA after the load: the header copy
writes 0x202 bytes from the member `hdr`, far more than the header has. -/
theorem header_copy_overruns_setup_header :
    valid_bzImage idEnv zeroPage gpPlain (image_at 0x100000 10) ∧
    gpPlain.e820_entries = 0 ∧
    zeroPage.hdr + zeroPage.sizeof_setup_header ≤ 0x2d0 ∧
    0x2d0 < zeroPage.hdr + (0x0202 + rd8 (image_at 0x100000 10) (0x100000 + 0x0201)) ∧
    rd8 (load_linux idEnv zeroPage gpPlain zeros (image_at 0x100000 10)).params 0x2d0 = 0xAA := by
  decide

/-- C9, as the code has it: without a ramdisk in the descriptor
(`initrd_start >= initrd_end`) `load_linux` leaves `ramdisk_image` and
`ramdisk_size` as the setup header of the image carries them, so they are 0
when the image has 0 there; and with `initrd_start == initrd_end` below 2^32,
as in the scenario with both 0, `ext_ramdisk_image` and `ext_ramdisk_size`
are 0. -/
theorem no_ramdisk_fields (E : Env) (L : Layout) (gp : guest_params) (p0 m0 : Bytes)
    (hL : L.wf) (hv : valid_bzImage E L gp m0) (hge : gp.initrd_end ≤ gp.initrd_start) :
    rd32 (load_linux E L gp p0 m0).params (L.hdr + L.ramdisk_image)
      = image_hdr32 E gp m0 L.ramdisk_image ∧
    rd32 (load_linux E L gp p0 m0).params (L.hdr + L.ramdisk_size)
      = image_hdr32 E gp m0 L.ramdisk_size ∧
    (gp.initrd_start = gp.initrd_end → gp.initrd_start < 2 ^ 32 →
      rd32 (load_linux E L gp p0 m0).params L.ext_ramdisk_image = 0 ∧
      rd32 (load_linux E L gp p0 m0).params L.ext_ramdisk_size = 0) := by
  rw [load_linux_valid E L gp p0 m0 hL hv, relocate_and_enter_params,
    (fill_params_ext E L gp _ hL).1, (fill_params_ext E L gp _ hL).2,
    (fill_params_ramdisk E L gp _ hL).1, (fill_params_ramdisk E L gp _ hL).2,
    (parse_header_no_ramdisk E L gp p0 m0 hL hge).1,
    (parse_header_no_ramdisk E L gp p0 m0 hL hge).2]
  refine ⟨rfl, rfl, ?_⟩
  intro heq hsmall
  rw [← heq]
  unfold sub64 u64
  constructor <;> omega

/-- An instance: a descriptor with `initrd_start == initrd_end == 0`. -/
theorem no_ramdisk_fields_witness :
    zeroPage.wf ∧ valid_bzImage idEnv zeroPage gpPlain (image_at 0x100000 10) ∧
    gpPlain.initrd_end ≤ gpPlain.initrd_start ∧
    rd32 (load_linux idEnv zeroPage gpPlain zeros (image_at 0x100000 10)).params
        (zeroPage.hdr + zeroPage.ramdisk_image)
      = image_hdr32 idEnv gpPlain (image_at 0x100000 10) zeroPage.ramdisk_image ∧
    rd32 (load_linux idEnv zeroPage gpPlain zeros (image_at 0x100000 10)).params
        zeroPage.ext_ramdisk_image = 0 ∧
    rd32 (load_linux idEnv zeroPage gpPlain zeros (image_at 0x100000 10)).params
        zeroPage.ext_ramdisk_size = 0 :=
  ⟨by decide, by decide, by decide,
    (no_ramdisk_fields idEnv zeroPage gpPlain zeros (image_at 0x100000 10)
      (by decide) (by decide) (by decide)).1,
    (no_ramdisk_fields idEnv zeroPage gpPlain zeros (image_at 0x100000 10)
      (by decide) (by decide) (by decide)).2.2 rfl (by decide)⟩

/-- C9 fails as stated.  With `initrd_start == initrd_end == 0` and a valid
bzImage whose header carries 5 in `ramdisk_image`, `ramdisk_image` of `params`
is 5 after the load; with `initrd_start` = 5 above `initrd_end` = 3, the store
to `ext_ramdisk_size`, which no test guards, leaves 0xffffffff there. -/
theorem no_ramdisk_fields_not_all_zero :
    (valid_bzImage idEnv zeroPage gpPlain image_with_ramdisk ∧
      gpPlain.initrd_start = 0 ∧ gpPlain.initrd_end = 0 ∧
      rd32 (load_linux idEnv zeroPage gpPlain zeros image_with_ramdisk).params
        (zeroPage.hdr + zeroPage.ramdisk_image) = 5) ∧
    (valid_bzImage idEnv zeroPage gpBackwards (image_at 0x100000 10) ∧
      gpBackwards.initrd_end ≤ gpBackwards.initrd_start ∧
      rd32 (load_linux idEnv zeroPage gpBackwards zeros (image_at 0x100000 10)).params
        zeroPage.ext_ramdisk_size = 0xffffffff) := by
  decide

/-! ## The claim on main -/

theorem run_calls_prefix (result : Stage → StageResult) (l : List Stage) :
    run_calls result l <+: l := by
  induction l with
  | nil => exact List.prefix_refl _
  | cons f rest ih =>
    unfold run_calls
    cases result f with
    | completes => exact (List.prefix_cons_inj f).mpr ih
    | fails => exact (List.prefix_cons_inj f).mpr (List.nil_prefix)

/-- When every stage completes, `main` calls each of the ten stages once, in
the order of the source. -/
theorem main_all_complete (result : Stage → StageResult)
    (h : ∀ f, result f = StageResult.completes) : main result = main_body := by
  simp [main, main_body, run_calls, h]

/-- What `main` calls when `f` fails: the stages up to `f`, and none after. -/
theorem run_calls_stop (result : Stage → StageResult) (pre post : List Stage) (f : Stage)
    (h : result f = StageResult.fails) :
    run_calls result (pre ++ f :: post) <+: pre ++ [f] := by
  induction pre with
  | nil =>
    simp only [List.nil_append, run_calls, h]
    exact List.prefix_refl _
  | cons g rest ih =>
    simp only [List.cons_append, run_calls]
    cases result g with
    | completes => exact (List.prefix_cons_inj g).mpr ih
    | fails => exact (List.prefix_cons_inj g).mpr (List.nil_prefix)

/-- C10: `main` calls its stages in the order of the source, each at most once,
and a stage that fails stops the chain: in a run in which `apic_init` fails,
`kvm_init` is not called and `kvm_bsp_run` is not entered. -/
theorem main_stops_at_apic_failure (result : Stage → StageResult)
    (h : result Stage.apic_init = StageResult.fails) :
    Stage.kvm_init ∉ main result ∧ Stage.kvm_bsp_run ∉ main result ∧
    main result <+: main_body ∧ (main result).Nodup := by
  have hstop : main result <+:
      [Stage.porte9_init, Stage.vgacon_init, Stage.cpu_init, Stage.tsc_init, Stage.trap_init,
       Stage.multiboot_init, Stage.acpi_table_init] ++ [Stage.apic_init] :=
    run_calls_stop result
      [Stage.porte9_init, Stage.vgacon_init, Stage.cpu_init, Stage.tsc_init, Stage.trap_init,
       Stage.multiboot_init, Stage.acpi_table_init]
      [Stage.kvm_init, Stage.kvm_bsp_run] Stage.apic_init h
  have hpre : main result <+: main_body := run_calls_prefix result main_body
  refine ⟨?_, ?_, hpre, ?_⟩
  · intro hin
    have := hstop.subset hin
    revert this
    decide
  · intro hin
    have := hstop.subset hin
    revert this
    decide
  · exact List.Nodup.sublist hpre.sublist (by decide)

/-- An instance: the run in which `apic_init` is the one stage that fails. -/
theorem main_stops_at_apic_failure_witness :
    (fun f => if f = Stage.apic_init then StageResult.fails else StageResult.completes)
        Stage.apic_init = StageResult.fails ∧
    Stage.kvm_init ∉
      main (fun f => if f = Stage.apic_init then StageResult.fails else StageResult.completes) :=
  ⟨by decide,
    (main_stops_at_apic_failure
      (fun f => if f = Stage.apic_init then StageResult.fails else StageResult.completes)
      (by decide)).1⟩
end Lvisor
